import Mathlib

/-!
# Verification of the Stock Analysis dashboard pipeline

Shallow embedding of `src/stock_analysis/app.py`: the data-fetch helper
(`download_data` with its try/except and column flattening), the memoizing
cache wrapper, the indicator enrichment (SMA, SMA, EMA, RSI columns),
the `dropna` alignment step, and the performance-summary block.

Numbers are modelled as rationals (the code uses double precision floats;
no claim here depends on rounding).  A pandas `NaN` cell is modelled as
`Option.none`.  The indicator computations themselves are performed by the
external `pandas_ta` library, which is not part of this repository; they
are modelled from the specification (§4.2), as marked on each definition.
-/

namespace StockAnalysis

/-- One daily OHLCV bar of the fetched series.  `close` is the canonical
price used by every downstream computation. -/
structure Bar where
  date : ℕ
  openP : ℚ
  high : ℚ
  low : ℚ
  close : ℚ
  volume : ℕ
  deriving DecidableEq, Repr

/-- Raw result frame of a successful `yf.download` call.  `multiIndexCols`
records whether the provider returned the occasional MultiIndex column
shape that `download_data` flattens. -/
structure RawFrame where
  rows : List Bar
  multiIndexCols : Bool
  deriving DecidableEq, Repr

/-- `data.columns.droplevel(1)`: normalizes the column shape; every row is
kept unchanged. -/
def flatten (d : RawFrame) : List Bar := d.rows

/-- Body of `download_data` (app.py lines 20-35).  The underlying
`yf.download` call either returns a frame or raises; the `try/except`
catches any exception and returns `None`, modelled as `none`. -/
def download_data (fetch : Except String RawFrame) : Option (List Bar) :=
  match fetch with
  | Except.ok d => some (flatten d)
  | Except.error _ => none

/-- The `st.error` message emitted inside `download_data` when the fetch
raises: it carries the ticker and the underlying cause. -/
def failedDownloadMsg (ticker err : String) : String :=
  "Failed to download data for " ++ ticker ++ ". Error: " ++ err

/-- The `st.error` message of the caller-side else branch (app.py line 130),
shown when `download_data` returned `None` or an empty frame. -/
def couldNotFetchMsg (ticker : String) : String :=
  "Could not fetch data for " ++ ticker ++
    ". Please check the ticker symbol and the selected date range."

/-- Messages surfaced by the body of `download_data` itself. -/
def downloadMessages (ticker : String) (fetch : Except String RawFrame) :
    List String :=
  match fetch with
  | Except.ok _ => []
  | Except.error e => [failedDownloadMsg ticker e]

/-! ## Indicator Engine

Modelled from the spec: the SMA/EMA/RSI computations are performed by the
external `pandas_ta` library (app.py lines 69-72), whose code is not part
of this repository; the definitions below follow §4.2 of the
specification.  Each indicator is a per-row function returning `none`
where the spec declares the value undefined. -/

/-- Modelled from the spec: Simple Moving Average of window `w` at 0-indexed
row `i`; defined only when `i ≥ w−1` (and the row exists), with value the
arithmetic mean of the closes over indices `[i−w+1, i]`. -/
def smaAt (closes : List ℚ) (w i : ℕ) : Option ℚ :=
  if w ≤ i + 1 ∧ i < closes.length then
    some ((((closes.drop (i + 1 - w)).take w).sum) / (w : ℚ))
  else none

/-- EMA smoothing factor α = 2/(w+1). -/
def emaAlpha (w : ℕ) : ℚ := 2 / ((w : ℚ) + 1)

/-- Modelled from the spec: value of the EMA recurrence `j` steps after the
seed index `w−1`.  Step 0 is the SMA(w) seed; step `j+1` sits at price
index `w+j` and applies `EMA[i] = α·close[i] + (1−α)·EMA[i−1]`. -/
def emaAux (closes : List ℚ) (w : ℕ) : ℕ → ℚ
  | 0 => ((closes.take w).sum) / (w : ℚ)
  | j + 1 => emaAlpha w * closes.getD (w + j) 0 + (1 - emaAlpha w) * emaAux closes w j

/-- Modelled from the spec: Exponential Moving Average of window `w` at row
`i`; first defined at the same index as SMA(w), seeded with the SMA(w)
value there. -/
def emaAt (closes : List ℚ) (w i : ℕ) : Option ℚ :=
  if w ≤ i + 1 ∧ i < closes.length then some (emaAux closes w (i - (w - 1)))
  else none

/-- Day-over-day close differences: `diffs[j] = close[j+1] − close[j]`. -/
def diffs (closes : List ℚ) : List ℚ :=
  List.zipWith (fun a b => b - a) closes closes.tail

/-- Per-difference gains: positive part of each difference. -/
def gains (closes : List ℚ) : List ℚ := (diffs closes).map (fun d => max d 0)

/-- Per-difference losses: positive part of each negated difference. -/
def losses (closes : List ℚ) : List ℚ := (diffs closes).map (fun d => max (-d) 0)

/-- Modelled from the spec: Wilder smoothed average over a difference-indexed
sequence.  Step 0 is the plain average of the first `w` entries (sitting at
difference index `w−1`); step `j+1` sits at difference index `w+j` and
applies `avg[i] = (avg[i−1]·(w−1) + x[i])/w`. -/
def wilderAvg (xs : List ℚ) (w : ℕ) : ℕ → ℚ
  | 0 => ((xs.take w).sum) / (w : ℚ)
  | j + 1 => (wilderAvg xs w j * ((w : ℚ) - 1) + xs.getD (w + j) 0) / (w : ℚ)

/-- Modelled from the spec: Relative Strength Index of window `w` at price
row `i`; defined only from row index `w` on (the `w`-th difference being
the last one used).  `RSI = 100 − 100/(1 + avgGain/avgLoss)`, with the
zero-loss rule `avgLoss = 0 → RSI = 100`. -/
def rsiAt (closes : List ℚ) (w i : ℕ) : Option ℚ :=
  if 1 ≤ w ∧ w ≤ i ∧ i < closes.length then
    some (if wilderAvg (losses closes) w (i - w) = 0 then 100
      else 100 - 100 / (1 + wilderAvg (gains closes) w (i - w) /
        wilderAvg (losses closes) w (i - w)))
  else none

/-! ## Enrichment and alignment -/

/-- The four indicator window parameters of the sidebar. -/
structure IndicatorConfig where
  short_ma : ℕ
  long_ma : ℕ
  ema_period : ℕ
  rsi_period : ℕ
  deriving DecidableEq, Repr

/-- A row of the enriched frame: the original bar plus the four appended
indicator columns (`none` = NaN cell). -/
structure EnrichedBar where
  bar : Bar
  sma_short : Option ℚ
  sma_long : Option ℚ
  ema : Option ℚ
  rsi : Option ℚ
  deriving DecidableEq, Repr

/-- Close-price column of a series. -/
def closesOf (s : List Bar) : List ℚ := s.map Bar.close

/-- The four `data.ta.*(append=True)` calls (app.py lines 69-72): each row
keeps its bar and gains the four indicator cells at its own row index. -/
def enrich (cfg : IndicatorConfig) (s : List Bar) : List EnrichedBar :=
  s.enum.map (fun ib =>
    { bar := ib.2
      sma_short := smaAt (closesOf s) cfg.short_ma ib.1
      sma_long := smaAt (closesOf s) cfg.long_ma ib.1
      ema := emaAt (closesOf s) cfg.ema_period ib.1
      rsi := rsiAt (closesOf s) cfg.rsi_period ib.1 })

/-- A row has no NaN cell. -/
def allDefined (e : EnrichedBar) : Bool :=
  e.sma_short.isSome && e.sma_long.isSome && e.ema.isSome && e.rsi.isSome

/-- `data.dropna(inplace=True)` (app.py line 73): remove every row holding
any NaN cell.  The OHLCV cells of a fetched bar are always present, so a
row is removed exactly when some indicator cell is NaN. -/
def dropna (es : List EnrichedBar) : List EnrichedBar := es.filter allDefined

/-- First row index at which all four indicators are simultaneously
defined: the largest of the individual definedness thresholds
(`w−1` for each moving average, `w` for the RSI). -/
def alignThreshold (cfg : IndicatorConfig) : ℕ :=
  max (max (cfg.short_ma - 1) (cfg.long_ma - 1))
    (max (cfg.ema_period - 1) cfg.rsi_period)

/-! ## Performance summary -/

/-- `data['Close'].pct_change()` without its leading NaN entry:
`(close[j+1] − close[j]) / close[j]`. -/
def pct_change (closes : List ℚ) : List ℚ :=
  List.zipWith (fun a b => (b - a) / a) closes closes.tail

/-- Sample variance with `ddof=1`, pandas convention: `NaN` (here `none`)
when fewer than two observations are available. -/
def sampleVar (xs : List ℚ) : Option ℚ :=
  if 2 ≤ xs.length then
    some (((xs.map (fun x => (x - xs.sum / (xs.length : ℚ)) ^ 2)).sum) /
      ((xs.length : ℚ) - 1))
  else none

/-- The four metrics of the performance-summary block.  The code displays
`std(pct_change) · √252`; since the square root is order- and
zero-preserving and sends NaN to NaN, the model stores the squared
quantity `252 · var(pct_change)` (`none` = NaN). -/
structure Summary where
  start_price : ℚ
  end_price : ℚ
  total_return : ℚ
  annualized_volatility_sq : Option ℚ
  deriving DecidableEq, Repr

/-- The performance-summary block (app.py lines 106-110) applied to the
close column of the (already aligned) frame.  `iloc[0]` on an empty frame
raises an uncaught IndexError, modelled as `none`; otherwise the four
metrics are computed unconditionally. -/
def performanceSummary (closes : List ℚ) : Option Summary :=
  match closes with
  | [] => none
  | c :: rest =>
    some { start_price := c
           end_price := (c :: rest).getLastD c
           total_return := (c :: rest).getLastD c / c - 1
           annualized_volatility_sq :=
             (sampleVar (pct_change (c :: rest))).map (fun v => 252 * v) }

/-! ## Series cache -/

/-- State of the `st.cache_data` memo on `download_data`: stored return
values keyed by the argument tuple, plus a count of how often the external
adapter has actually been contacted. -/
structure CacheState where
  entries : List ((String × ℕ × ℕ) × Option (List Bar))
  adapterCalls : ℕ
  deriving DecidableEq

/-- Modelled from the spec: the `st.cache_data` memoization wrapper around
`download_data` (the decorator's code is in the external streamlit
library).  On a hit the stored return value comes back without running the
body; on a miss the body runs once — observing the adapter's behaviour for
the current call number — and its return value, whatever it is, is stored
under the key.  The body itself is `download_data` from the source. -/
def cachedDownload (adapter : ℕ → Except String RawFrame)
    (cs : CacheState) (key : String × ℕ × ℕ) :
    Option (List Bar) × CacheState :=
  match cs.entries.lookup key with
  | some v => (v, cs)
  | none =>
    let r := download_data (adapter cs.adapterCalls)
    (r, ⟨(key, r) :: cs.entries, cs.adapterCalls + 1⟩)

/-! ## Whole-run dispatch -/

/-- Observable outcome of one Run-Analysis invocation: the `st.error`
messages shown, the frame handed to the chart/table widgets (if any), and
the summary metrics (if the summary block completed). -/
structure RunResult where
  messages : List String
  chart : Option (List EnrichedBar)
  summary : Option Summary
  deriving DecidableEq

/-- The main dispatch (app.py lines 64-131) for a fresh, uncached
invocation: `None` and empty frames both fall into the single
`else`-branch error message; otherwise the frame is enriched, aligned and
charted, and the summary block runs (`none` summary = the IndexError crash
on an empty aligned frame). -/
def runAnalysis (cfg : IndicatorConfig) (ticker : String)
    (fetch : Except String RawFrame) : RunResult :=
  match download_data fetch with
  | none => ⟨downloadMessages ticker fetch ++ [couldNotFetchMsg ticker], none, none⟩
  | some bars =>
    if bars.isEmpty then
      ⟨downloadMessages ticker fetch ++ [couldNotFetchMsg ticker], none, none⟩
    else
      let aligned := dropna (enrich cfg bars)
      ⟨downloadMessages ticker fetch, some aligned,
        performanceSummary (aligned.map (fun e => e.bar.close))⟩

/-! ## Concrete inputs used by witnesses -/

/-- A small indicator configuration (short SMA 2, long SMA 3, EMA 2, RSI 2)
used to evaluate the pipeline on concrete data. -/
def cfgW : IndicatorConfig := ⟨2, 3, 2, 2⟩

/-- A five-day series with strictly rising closes 10..14. -/
def sW : List Bar :=
  [⟨0, 1, 1, 1, 10, 5⟩, ⟨1, 1, 1, 1, 11, 5⟩, ⟨2, 1, 1, 1, 12, 5⟩,
   ⟨3, 1, 1, 1, 13, 5⟩, ⟨4, 1, 1, 1, 14, 5⟩]

/-- An external adapter whose first call fails with a network error and
whose later calls succeed with a one-row frame. -/
def adapterFailsOnce : ℕ → Except String RawFrame :=
  fun n => if n = 0 then Except.error "network unreachable"
    else Except.ok ⟨[⟨0, 1, 1, 1, 1, 0⟩], false⟩

/-! ## Helper lemmas -/

/-- Reading a list of nonnegative rationals with default `0` always yields a
nonnegative value. -/
theorem getD_nonneg {xs : List ℚ} (h : ∀ x ∈ xs, 0 ≤ x) (k : ℕ) :
    0 ≤ xs.getD k 0 := by
  by_cases hk : k < xs.length
  · rw [List.getD_eq_getElem xs 0 hk]
    exact h _ (xs.getElem_mem hk)
  · rw [List.getD_eq_default xs 0 (Nat.le_of_not_lt hk)]

/-- The Wilder smoothed average of a nonnegative sequence is nonnegative. -/
theorem wilderAvg_nonneg {xs : List ℚ} {w : ℕ} (hw : 1 ≤ w)
    (h : ∀ x ∈ xs, 0 ≤ x) : ∀ j, 0 ≤ wilderAvg xs w j := by
  intro j
  induction j with
  | zero =>
    apply div_nonneg
    · exact List.sum_nonneg (fun x hx => h x (List.mem_of_mem_take hx))
    · exact_mod_cast Nat.zero_le w
  | succ j ih =>
    apply div_nonneg
    · have hw1 : (0 : ℚ) ≤ (w : ℚ) - 1 := by
        have : (1 : ℚ) ≤ (w : ℚ) := by exact_mod_cast hw
        linarith
      have hx := getD_nonneg h (w + j)
      have := mul_nonneg ih hw1
      linarith
    · exact_mod_cast Nat.zero_le w

/-- Every entry of `gains` is nonnegative. -/
theorem gains_nonneg (closes : List ℚ) : ∀ x ∈ gains closes, 0 ≤ x := by
  intro x hx
  obtain ⟨d, _, rfl⟩ := List.mem_map.mp hx
  exact le_max_right d 0

/-- Every entry of `losses` is nonnegative. -/
theorem losses_nonneg (closes : List ℚ) : ∀ x ∈ losses closes, 0 ≤ x := by
  intro x hx
  obtain ⟨d, _, rfl⟩ := List.mem_map.mp hx
  exact le_max_right (-d) 0

/-- Filtering with a predicate that holds exactly from index `T` on is the
same as dropping the first `T` elements. -/
theorem filter_eq_drop_of_iff {α : Type} (p : α → Bool) :
    ∀ (l : List α) (T : ℕ),
      (∀ (i : ℕ) (hi : i < l.length), (p l[i] = true ↔ T ≤ i)) →
      l.filter p = l.drop T := by
  intro l
  induction l with
  | nil => intro T _; simp
  | cons a l ih =>
    intro T h
    match T with
    | 0 =>
      have ha : p a = true := by simpa using (h 0 (by simp)).mpr (Nat.le_refl 0)
      have hl : List.filter p l = l := by
        rw [List.filter_eq_self]
        intro x hx
        obtain ⟨n, hn, rfl⟩ := List.mem_iff_getElem.mp hx
        simpa using (h (n + 1) (by simpa using Nat.succ_lt_succ hn)).mpr
          (Nat.zero_le _)
      simp [List.filter_cons, ha, hl]
    | T + 1 =>
      have ha : p a = false := by
        cases hb : p a with
        | false => rfl
        | true =>
          have := (h 0 (by simp)).mp (by simpa using hb)
          omega
      have hl : List.filter p l = l.drop T := by
        apply ih
        intro i hi
        have := h (i + 1) (by simpa using Nat.succ_lt_succ hi)
        simpa [Nat.succ_le_succ_iff] using this
      simp [List.filter_cons, ha, hl, List.drop_succ_cons]

/-- The sum of the window slice `[a, a+w)` of a list, written as a sum of
indexed reads. -/
theorem sum_slice (l : List ℚ) :
    ∀ (w a : ℕ), a + w ≤ l.length →
      ((l.drop a).take w).sum = ∑ j ∈ Finset.range w, l.getD (a + j) 0 := by
  intro w
  induction w with
  | zero => intro a _; simp
  | succ w ih =>
    intro a ha
    rw [List.take_succ, List.sum_append, Finset.sum_range_succ, ih a (by omega)]
    congr 1
    have hb : a + w < l.length := by omega
    rw [List.getElem?_drop, List.getElem?_eq_getElem hb]
    simp [List.getD_eq_getElem l 0 hb, List.getElem?_eq_getElem hb]

/-- Definedness of the modelled SMA. -/
theorem smaAt_isSome (closes : List ℚ) (w i : ℕ) :
    (smaAt closes w i).isSome = true ↔ (w ≤ i + 1 ∧ i < closes.length) := by
  rw [smaAt]
  split <;> simp_all

/-- Definedness of the modelled EMA. -/
theorem emaAt_isSome (closes : List ℚ) (w i : ℕ) :
    (emaAt closes w i).isSome = true ↔ (w ≤ i + 1 ∧ i < closes.length) := by
  rw [emaAt]
  split <;> simp_all

/-- Definedness of the modelled RSI. -/
theorem rsiAt_isSome (closes : List ℚ) (w i : ℕ) :
    (rsiAt closes w i).isSome = true ↔ (1 ≤ w ∧ w ≤ i ∧ i < closes.length) := by
  rw [rsiAt]
  split <;> simp_all

/-- Enrichment preserves the length of the series. -/
theorem length_enrich (cfg : IndicatorConfig) (s : List Bar) :
    (enrich cfg s).length = s.length := by
  simp [enrich, List.enum_length]

/-- Row `i` of the enriched frame: the original bar plus the four indicator
cells at index `i`. -/
theorem getElem_enrich (cfg : IndicatorConfig) (s : List Bar) (i : ℕ)
    (hi : i < s.length) (hi2 : i < (enrich cfg s).length) :
    (enrich cfg s)[i] =
      { bar := s[i]
        sma_short := smaAt (closesOf s) cfg.short_ma i
        sma_long := smaAt (closesOf s) cfg.long_ma i
        ema := emaAt (closesOf s) cfg.ema_period i
        rsi := rsiAt (closesOf s) cfg.rsi_period i } := by
  simp [enrich, List.getElem_map, List.getElem_enum]

/-- A row of the enriched frame has all four indicator cells defined exactly
from row index `alignThreshold cfg` on. -/
theorem allDefined_enrich (cfg : IndicatorConfig) (s : List Bar)
    (hr : 1 ≤ cfg.rsi_period) (i : ℕ) (hi2 : i < (enrich cfg s).length) :
    (allDefined (enrich cfg s)[i] = true ↔ alignThreshold cfg ≤ i) := by
  have hi : i < s.length := by
    rw [length_enrich] at hi2; exact hi2
  have hcl : (closesOf s).length = s.length := by simp [closesOf]
  rw [getElem_enrich cfg s i hi hi2]
  simp only [allDefined, Bool.and_eq_true, smaAt_isSome, emaAt_isSome,
    rsiAt_isSome, hcl, alignThreshold]
  omega

/-- On an enriched frame, `dropna` keeps exactly the suffix starting at
`alignThreshold cfg`. -/
theorem dropna_enrich (cfg : IndicatorConfig) (s : List Bar)
    (hr : 1 ≤ cfg.rsi_period) :
    dropna (enrich cfg s) = (enrich cfg s).drop (alignThreshold cfg) :=
  filter_eq_drop_of_iff _ _ _ (fun i hi => allDefined_enrich cfg s hr i hi)

/-- The bar column of the enriched frame is the original series. -/
theorem map_bar_enrich (cfg : IndicatorConfig) (s : List Bar) :
    (enrich cfg s).map EnrichedBar.bar = s := by
  rw [enrich, List.map_map]
  exact List.enum_map_snd s

/-! ## Claim theorems -/

/-- C4: for every series of closes and every SMA window `w ≥ 1`, the SMA
value at 0-indexed row `i` is defined iff `i ≥ w−1`, and when defined it is
the arithmetic mean of the closes at indices `[i−w+1, i]`; in particular
`SMA[w−1]` is the mean of the first `w` closes. -/
theorem C4_sma_window (closes : List ℚ) (w i : ℕ) (hw : 1 ≤ w)
    (hi : i < closes.length) :
    ((smaAt closes w i).isSome = true ↔ w - 1 ≤ i) ∧
    (w - 1 ≤ i → smaAt closes w i =
      some ((∑ j ∈ Finset.range w, closes.getD (i + 1 - w + j) 0) / (w : ℚ))) ∧
    (w ≤ closes.length → smaAt closes w (w - 1) =
      some ((closes.take w).sum / (w : ℚ))) := by
  refine ⟨?_, ?_, ?_⟩
  · rw [smaAt_isSome]
    omega
  · intro h
    rw [smaAt, if_pos ⟨by omega, hi⟩]
    rw [sum_slice closes w (i + 1 - w) (by omega)]
  · intro h
    rw [smaAt, if_pos ⟨by omega, by omega⟩]
    have h0 : w - 1 + 1 - w = 0 := by omega
    rw [h0, List.drop_zero]

/-- C4 witness: window 2 over three closes. -/
theorem C4_sma_window_witness :
    (1 ≤ 2 ∧ 1 < ([(2 : ℚ), 4, 6]).length) ∧
    smaAt [(2 : ℚ), 4, 6] 2 1 = some 3 ∧
    (((smaAt [(2 : ℚ), 4, 6] 2 1).isSome = true ↔ 2 - 1 ≤ 1) ∧
      (2 - 1 ≤ 1 → smaAt [(2 : ℚ), 4, 6] 2 1 =
        some ((∑ j ∈ Finset.range 2, ([(2 : ℚ), 4, 6]).getD (1 + 1 - 2 + j) 0) /
          ((2 : ℕ) : ℚ))) ∧
      (2 ≤ ([(2 : ℚ), 4, 6]).length → smaAt [(2 : ℚ), 4, 6] 2 (2 - 1) =
        some ((([(2 : ℚ), 4, 6]).take 2).sum / ((2 : ℕ) : ℚ)))) :=
  ⟨⟨by norm_num, by norm_num⟩, by norm_num [smaAt],
    C4_sma_window [2, 4, 6] 2 1 (by norm_num) (by norm_num)⟩

/-- C5: for every series of closes and EMA window `w ≥ 1`, with
`α = 2/(w+1)`: EMA is undefined before index `w−1`, first defined at `w−1`
where it equals SMA(w), and for later in-range rows satisfies
`EMA[i] = α·close[i] + (1−α)·EMA[i−1]`. -/
theorem C5_ema_recurrence (closes : List ℚ) (w : ℕ) (hw : 1 ≤ w) :
    (∀ i, i + 1 < w → emaAt closes w i = none) ∧
    (w - 1 < closes.length → emaAt closes w (w - 1) = smaAt closes w (w - 1)) ∧
    (∀ i, w ≤ i → i < closes.length →
      emaAt closes w i = (emaAt closes w (i - 1)).map
        (fun prev => emaAlpha w * closes.getD i 0 + (1 - emaAlpha w) * prev)) := by
  refine ⟨?_, ?_, ?_⟩
  · intro i h
    rw [emaAt, if_neg]
    omega
  · intro h
    rw [emaAt, if_pos ⟨by omega, h⟩, smaAt, if_pos ⟨by omega, h⟩]
    have h1 : w - 1 - (w - 1) = 0 := by omega
    have h2 : w - 1 + 1 - w = 0 := by omega
    rw [h1, h2, List.drop_zero]
    rfl
  · intro i h1 h2
    have hprev : emaAt closes w (i - 1) =
        some (emaAux closes w (i - 1 - (w - 1))) := by
      rw [emaAt, if_pos ⟨by omega, by omega⟩]
    rw [hprev, emaAt, if_pos ⟨by omega, h2⟩]
    have hidx : i - (w - 1) = (i - 1 - (w - 1)) + 1 := by omega
    rw [hidx]
    have hw2 : w + (i - 1 - (w - 1)) = i := by omega
    simp only [emaAux, hw2, Option.map_some']

/-- C5 witness: window 2 over four closes; the seed and one recurrence
step evaluate concretely. -/
theorem C5_ema_recurrence_witness :
    1 ≤ 2 ∧
    emaAt [(1 : ℚ), 2, 3, 4] 2 1 = some (3 / 2) ∧
    emaAt [(1 : ℚ), 2, 3, 4] 2 2 = some (5 / 2) ∧
    ((∀ i, i + 1 < 2 → emaAt [(1 : ℚ), 2, 3, 4] 2 i = none) ∧
      (2 - 1 < ([(1 : ℚ), 2, 3, 4]).length →
        emaAt [(1 : ℚ), 2, 3, 4] 2 (2 - 1) = smaAt [(1 : ℚ), 2, 3, 4] 2 (2 - 1)) ∧
      (∀ i, 2 ≤ i → i < ([(1 : ℚ), 2, 3, 4]).length →
        emaAt [(1 : ℚ), 2, 3, 4] 2 i = (emaAt [(1 : ℚ), 2, 3, 4] 2 (i - 1)).map
          (fun prev => emaAlpha 2 * ([(1 : ℚ), 2, 3, 4]).getD i 0 +
            (1 - emaAlpha 2) * prev))) :=
  ⟨by norm_num, by norm_num [emaAt, emaAux, emaAlpha],
    by norm_num [emaAt, emaAux, emaAlpha],
    C5_ema_recurrence [1, 2, 3, 4] 2 (by norm_num)⟩

/-- C1: every defined RSI value lies in `[0, 100]`, and whenever the Wilder
average loss at that row is zero (all window differences are gains, or the
close price is constant) the value is exactly `100` — defined, not NaN. -/
theorem C1_rsi_bounds (closes : List ℚ) (w i : ℕ) (hw7 : 7 ≤ w) (hw30 : w ≤ 30)
    (r : ℚ) (hr : rsiAt closes w i = some r) :
    (0 ≤ r ∧ r ≤ 100) ∧
    (wilderAvg (losses closes) w (i - w) = 0 → r = 100) := by
  rw [rsiAt] at hr
  by_cases hc : 1 ≤ w ∧ w ≤ i ∧ i < closes.length
  case neg =>
    rw [if_neg hc] at hr
    exact absurd hr (by simp)
  rw [if_pos hc] at hr
  have hval := Option.some.inj hr
  have hgn : 0 ≤ wilderAvg (gains closes) w (i - w) :=
    wilderAvg_nonneg hc.1 (gains_nonneg closes) _
  have hln : 0 ≤ wilderAvg (losses closes) w (i - w) :=
    wilderAvg_nonneg hc.1 (losses_nonneg closes) _
  by_cases h0 : wilderAvg (losses closes) w (i - w) = 0
  · rw [if_pos h0] at hval
    subst hval
    exact ⟨⟨by norm_num, by norm_num⟩, fun _ => rfl⟩
  · rw [if_neg h0] at hval
    subst hval
    have hlpos : 0 < wilderAvg (losses closes) w (i - w) :=
      lt_of_le_of_ne hln (Ne.symm h0)
    have hq : 0 ≤ wilderAvg (gains closes) w (i - w) /
        wilderAvg (losses closes) w (i - w) := div_nonneg hgn (le_of_lt hlpos)
    have hfrac1 : 100 / (1 + wilderAvg (gains closes) w (i - w) /
        wilderAvg (losses closes) w (i - w)) ≤ 100 :=
      div_le_self (by norm_num) (by linarith)
    have hfrac0 : 0 ≤ 100 / (1 + wilderAvg (gains closes) w (i - w) /
        wilderAvg (losses closes) w (i - w)) :=
      div_nonneg (by norm_num) (by linarith)
    exact ⟨⟨by linarith, by linarith⟩, fun hl0 => absurd hl0 h0⟩

/-- C1 witness: a strictly rising series (all differences are gains), RSI
window 7 at its first defined row, evaluating to exactly 100. -/
theorem C1_rsi_bounds_witness :
    (7 ≤ 7 ∧ 7 ≤ 30) ∧
    rsiAt [(1 : ℚ), 2, 3, 4, 5, 6, 7, 8] 7 7 = some 100 ∧
    ((0 ≤ (100 : ℚ) ∧ (100 : ℚ) ≤ 100) ∧
      (wilderAvg (losses [(1 : ℚ), 2, 3, 4, 5, 6, 7, 8]) 7 (7 - 7) = 0 →
        (100 : ℚ) = 100)) :=
  ⟨⟨by norm_num, by norm_num⟩,
    by norm_num [rsiAt, wilderAvg, gains, losses, diffs],
    C1_rsi_bounds [1, 2, 3, 4, 5, 6, 7, 8] 7 7 (by norm_num) (by norm_num) 100
      (by norm_num [rsiAt, wilderAvg, gains, losses, diffs])⟩

/-- C3: window alignment on an enriched frame keeps exactly the contiguous
suffix starting at the earliest row index at which all four indicators are
simultaneously defined — rows before it are dropped, rows from it on are
kept, and definedness of all four indicators holds precisely from that
index on. -/
theorem C3_alignment_suffix (cfg : IndicatorConfig) (s : List Bar)
    (hr : 1 ≤ cfg.rsi_period) :
    dropna (enrich cfg s) = (enrich cfg s).drop (alignThreshold cfg) ∧
    (∀ (i : ℕ) (hi : i < (enrich cfg s).length),
      (allDefined (enrich cfg s)[i] = true ↔ alignThreshold cfg ≤ i)) :=
  ⟨dropna_enrich cfg s hr, fun i hi => allDefined_enrich cfg s hr i hi⟩

/-- C3 witness: the five-day series under the small configuration; the
threshold evaluates to row 2 and alignment keeps rows 2..4. -/
theorem C3_alignment_suffix_witness :
    1 ≤ cfgW.rsi_period ∧ alignThreshold cfgW = 2 ∧
    (dropna (enrich cfgW sW) = (enrich cfgW sW).drop (alignThreshold cfgW) ∧
      ∀ (i : ℕ) (hi : i < (enrich cfgW sW).length),
        (allDefined (enrich cfgW sW)[i] = true ↔ alignThreshold cfgW ≤ i)) :=
  ⟨by decide, by decide, C3_alignment_suffix cfgW sW (by decide)⟩

/-- C9: enrichment and alignment only append indicator columns and delete
whole rows: the bar column of the enriched frame is the fetched series
itself, and after alignment it is a contiguous suffix of the fetched
series — every retained row keeps its original date/OHLCV values, in the
original chronological order. -/
theorem C9_frame_preservation (cfg : IndicatorConfig) (s : List Bar)
    (hr : 1 ≤ cfg.rsi_period) :
    (enrich cfg s).map EnrichedBar.bar = s ∧
    (dropna (enrich cfg s)).map EnrichedBar.bar = s.drop (alignThreshold cfg) := by
  refine ⟨map_bar_enrich cfg s, ?_⟩
  rw [dropna_enrich cfg s hr, List.map_drop, map_bar_enrich cfg s]

/-- C9 witness: the five-day series under the small configuration. -/
theorem C9_frame_preservation_witness :
    1 ≤ cfgW.rsi_period ∧
    ((enrich cfgW sW).map EnrichedBar.bar = sW ∧
      (dropna (enrich cfgW sW)).map EnrichedBar.bar =
        sW.drop (alignThreshold cfgW)) :=
  ⟨by decide, C9_frame_preservation cfgW sW (by decide)⟩

/-- C2 counterexample: on a one-row aligned series the summary block does
not signal anything — it silently returns a summary with zero total return
and NaN (here `none`) volatility, contradicting the claimed
`InsufficientDataError`. -/
theorem C2_insufficient_counterexample :
    performanceSummary [(100 : ℚ)] =
      some { start_price := 100, end_price := 100, total_return := 0,
             annualized_volatility_sq := none } := by
  norm_num [performanceSummary, pct_change, sampleVar]

/-- C2 (amended): on a zero-row aligned series the summary block aborts
with an uncaught IndexError (modelled `none`) and produces no summary; on a
one-row series it silently produces a degenerate summary — total return `0`
and NaN volatility — instead of raising `InsufficientDataError`. -/
theorem C2_insufficient_amended :
    performanceSummary [] = none ∧
    (∀ c : ℚ, c ≠ 0 → performanceSummary [c] =
      some { start_price := c, end_price := c, total_return := 0,
             annualized_volatility_sq := none }) := by
  refine ⟨rfl, fun c hc => ?_⟩
  simp [performanceSummary, pct_change, sampleVar, div_self hc]

/-- C2 witness: the amended statement applied at close price 2. -/
theorem C2_insufficient_amended_witness :
    (2 : ℚ) ≠ 0 ∧ performanceSummary [(2 : ℚ)] =
      some { start_price := 2, end_price := 2, total_return := 0,
             annualized_volatility_sq := none } :=
  ⟨by norm_num, C2_insufficient_amended.2 2 (by norm_num)⟩

/-- C6: for every aligned close series with at least 2 rows, the summary is
produced and its total return equals `close[last]/close[first] − 1`. -/
theorem C6_total_return (closes : List ℚ) (h : 2 ≤ closes.length) :
    ∃ s, performanceSummary closes = some s ∧
      s.total_return = closes.getLastD 0 / closes.headD 0 - 1 := by
  match closes with
  | c :: rest =>
    refine ⟨_, rfl, ?_⟩
    show (c :: rest).getLastD c / c - 1 =
      (c :: rest).getLastD 0 / (c :: rest).headD 0 - 1
    obtain ⟨x, hx⟩ : ∃ x, (c :: rest).getLast? = some x :=
      ⟨(c :: rest).getLast (by simp), List.getLast?_eq_getLast _ (by simp)⟩
    simp [List.getLastD_eq_getLast?, hx, List.headD_cons]

/-- C6 witness: the two-row series `[1, 2]`, with total return `1`. -/
theorem C6_total_return_witness :
    2 ≤ ([(1 : ℚ), 2]).length ∧
    ∃ s, performanceSummary [(1 : ℚ), 2] = some s ∧
      s.total_return = ([(1 : ℚ), 2]).getLastD 0 / ([(1 : ℚ), 2]).headD 0 - 1 :=
  ⟨by norm_num, C6_total_return [1, 2] (by norm_num)⟩

/-- C7 counterexample: after a failed first fetch the `None` return *is*
stored in the cache (the exception is caught inside the memoized function),
so a second identical request returns `none` from the cache — without
contacting the adapter again — even though the adapter would now succeed. -/
theorem C7_cache_counterexample :
    (cachedDownload adapterFailsOnce ⟨[], 0⟩ ("AAPL", 0, 1)).1 = none ∧
    (cachedDownload adapterFailsOnce ⟨[], 0⟩ ("AAPL", 0, 1)).2.entries.lookup
      ("AAPL", 0, 1) = some none ∧
    (cachedDownload adapterFailsOnce
      (cachedDownload adapterFailsOnce ⟨[], 0⟩ ("AAPL", 0, 1)).2
        ("AAPL", 0, 1)).1 = none ∧
    (cachedDownload adapterFailsOnce
      (cachedDownload adapterFailsOnce ⟨[], 0⟩ ("AAPL", 0, 1)).2
        ("AAPL", 0, 1)).2.adapterCalls = 1 ∧
    download_data (adapterFailsOnce 1) = some [⟨0, 1, 1, 1, 1, 0⟩] := by
  refine ⟨rfl, rfl, rfl, rfl, rfl⟩

/-- C7 (amended): issuing the same fetch twice calls the external adapter
exactly once, and the second call returns the stored content without
contacting the adapter — but the stored content is whatever `download_data`
returned, *including* the `None` of a failed fetch, which is therefore
cached. -/
theorem C7_cache_amended (adapter : ℕ → Except String RawFrame)
    (cs : CacheState) (key : String × ℕ × ℕ)
    (h : cs.entries.lookup key = none) :
    (cachedDownload adapter cs key).2.entries.lookup key =
      some (cachedDownload adapter cs key).1 ∧
    (cachedDownload adapter cs key).2.adapterCalls = cs.adapterCalls + 1 ∧
    cachedDownload adapter (cachedDownload adapter cs key).2 key =
      ((cachedDownload adapter cs key).1, (cachedDownload adapter cs key).2) := by
  simp [cachedDownload, h, List.lookup_cons]

/-- C7 witness: the amended statement for the once-failing adapter on an
empty cache. -/
theorem C7_cache_amended_witness :
    ((⟨[], 0⟩ : CacheState).entries.lookup ("AAPL", 0, 1) = none) ∧
    ((cachedDownload adapterFailsOnce ⟨[], 0⟩ ("AAPL", 0, 1)).2.entries.lookup
        ("AAPL", 0, 1) =
      some (cachedDownload adapterFailsOnce ⟨[], 0⟩ ("AAPL", 0, 1)).1 ∧
    (cachedDownload adapterFailsOnce ⟨[], 0⟩ ("AAPL", 0, 1)).2.adapterCalls =
      (⟨[], 0⟩ : CacheState).adapterCalls + 1 ∧
    cachedDownload adapterFailsOnce
        (cachedDownload adapterFailsOnce ⟨[], 0⟩ ("AAPL", 0, 1)).2 ("AAPL", 0, 1) =
      ((cachedDownload adapterFailsOnce ⟨[], 0⟩ ("AAPL", 0, 1)).1,
        (cachedDownload adapterFailsOnce ⟨[], 0⟩ ("AAPL", 0, 1)).2)) :=
  ⟨rfl, C7_cache_amended adapterFailsOnce ⟨[], 0⟩ ("AAPL", 0, 1) rfl⟩

/-- C8: a failed fetch and a successful-but-empty fetch both abort the run
with no chart and no summary, and the two failure modes are
distinguishable: the failed fetch additionally surfaces the
`download_data` error message carrying the ticker and the underlying
cause, so the two runs produce different observable outcomes. -/
theorem C8_error_modes (cfg : IndicatorConfig) (ticker e : String) (mi : Bool) :
    runAnalysis cfg ticker (Except.error e) =
      ⟨[failedDownloadMsg ticker e, couldNotFetchMsg ticker], none, none⟩ ∧
    runAnalysis cfg ticker (Except.ok ⟨[], mi⟩) =
      ⟨[couldNotFetchMsg ticker], none, none⟩ ∧
    runAnalysis cfg ticker (Except.error e) ≠
      runAnalysis cfg ticker (Except.ok ⟨[], mi⟩) := by
  refine ⟨rfl, rfl, ?_⟩
  intro hcontra
  have hm : [failedDownloadMsg ticker e, couldNotFetchMsg ticker] =
      [couldNotFetchMsg ticker] := congrArg RunResult.messages hcontra
  exact absurd (congrArg List.length hm) (by simp)

/-- C10: `download_data` is total with respect to adapter failures — it
returns `none` exactly when the underlying download raised, and otherwise
returns the flattened frame; no exception propagates to the caller. -/
theorem C10_download_total (fetch : Except String RawFrame) :
    (download_data fetch = none ↔ ∃ e, fetch = Except.error e) ∧
    (∀ d, fetch = Except.ok d → download_data fetch = some (flatten d)) := by
  cases fetch with
  | ok d => simp [download_data]
  | error e => simp [download_data]

end StockAnalysis
